import Mathlib

/-!
# Verification of the pdfcraft Document Transformation Pipeline core

Shallow embedding of the page-selection, validation, parsing, pixel
recoloring, page-layout, progress and OCR-session logic of the pdfcraft
processors (`src/lib/pdf/processors/*`), with theorems settling the
specification's claims about them.

JavaScript numbers are modelled as `ℚ` (all arithmetic the embedded code
performs on them — addition, multiplication, division, comparison — is exact
on the rationals for the inputs of interest); page numbers are `Int`, page
counts `Nat`.
-/

namespace PDFCraft

/-- Error codes of the processors (`PDFErrorCode` in `@/types/pdf`). -/
inductive PDFErrorCode where
  | INVALID_OPTIONS
  | FILE_TYPE_INVALID
  | INVALID_PAGE_RANGE
  | PROCESSING_CANCELLED
  | PROCESSING_FAILED
  | PDF_ENCRYPTED
deriving DecidableEq, Repr

/-- Outcome of one processor run (`ProcessOutput`): either a success carrying
the processor-specific result payload, or a typed error with its message. -/
inductive Outcome (α : Type) where
  | success (result : α)
  | error (code : PDFErrorCode) (message : String)
deriving DecidableEq, Repr

/-! ## Pixel Recoloring Engine (`TextColorProcessor.process`, pixel loop)

The source iterates the flat RGBA `ImageData` array in strides of 4; we model
the buffer as a list of RGBA pixels. -/

/-- One RGBA pixel of the rendered page (`data[j] .. data[j+3]`). -/
structure Pixel where
  r : ℚ
  g : ℚ
  b : ℚ
  a : ℚ
deriving DecidableEq, Repr

/-- An RGB color with channels in `[0,1]` (`TextColorOptions.color`). -/
structure RGBColor where
  r : ℚ
  g : ℚ
  b : ℚ
deriving DecidableEq, Repr

/-- `const brightness = (pixelR + pixelG + pixelB) / 3` — simple average. -/
def brightness (p : Pixel) : ℚ := (p.r + p.g + p.b) / 3

/-- `const shouldChange = isDarkMode ? brightness < threshold : brightness > threshold`. -/
def shouldChange (isDarkMode : Bool) (threshold : ℚ) (p : Pixel) : Bool :=
  if isDarkMode then decide (brightness p < threshold)
  else decide (brightness p > threshold)

/-- The body of the recoloring loop for one pixel: pixels satisfying the mode
predicate get `r*255, g*255, b*255` written to their RGB bytes; the alpha byte
is not written (`// Alpha stays unchanged`). -/
def recolorPixel (isDarkMode : Bool) (threshold : ℚ) (c : RGBColor) (p : Pixel) : Pixel :=
  if shouldChange isDarkMode threshold p then
    { r := c.r * 255, g := c.g * 255, b := c.b * 255, a := p.a }
  else p

/-- The recoloring loop `for (let j = 0; j < data.length; j += 4)` over the
whole buffer, one pixel after the other. -/
def recolorData (isDarkMode : Bool) (threshold : ℚ) (c : RGBColor) :
    List Pixel → List Pixel
  | [] => []
  | p :: rest => recolorPixel isDarkMode threshold c p :: recolorData isDarkMode threshold c rest

/-! ## Page Layout Engine (`ImageToPDFProcessor`) -/

/-- Page size preset names (`PAGE_SIZES` keys). -/
inductive PageSizeType where
  | A4
  | LETTER
  | LEGAL
  | A3
  | A5
  | FIT
deriving DecidableEq, Repr

/-- `PAGE_SIZES` — page size presets in points (`FIT` is the `{0,0}` sentinel,
"fit to image size"). -/
def PAGE_SIZES : PageSizeType → ℚ × ℚ
  | .A4 => (59528/100, 84189/100)
  | .LETTER => (612, 792)
  | .LEGAL => (612, 1008)
  | .A3 => (84189/100, 119055/100)
  | .A5 => (41953/100, 59528/100)
  | .FIT => (0, 0)

/-- `ImageToPDFOptions.pageSize`: a preset name or custom `{width, height}`. -/
inductive PageSizeOpt where
  | preset (t : PageSizeType)
  | custom (width height : ℚ)
deriving DecidableEq, Repr

/-- `ImageToPDFOptions.orientation`. -/
inductive Orientation where
  | portrait
  | landscape
  | auto
deriving DecidableEq, Repr

/-- The fields of `ImageToPDFOptions` the layout functions consult. -/
structure ImageToPDFOptions where
  pageSize : PageSizeOpt
  orientation : Orientation
  margin : ℚ
  centerImage : Bool
  scaleToFit : Bool
deriving DecidableEq, Repr

/-- `ImageToPDFProcessor.calculatePageDimensions`: base page size from the
preset table (with `FIT` meaning image size plus margins) or the custom size,
then the orientation step, which swaps the two dimensions for explicit
`landscape`/`portrait` when they disagree, and for `auto` when the page's
aspect class differs from the image's — the `auto` branch alone skipping
custom sizes and the `FIT` preset. -/
def calculatePageDimensions (imageWidth imageHeight : ℚ)
    (options : ImageToPDFOptions) : ℚ × ℚ :=
  let base : ℚ × ℚ :=
    match options.pageSize with
    | .preset t =>
        if t = .FIT then
          (imageWidth + options.margin * 2, imageHeight + options.margin * 2)
        else PAGE_SIZES t
    | .custom w h => (w, h)
  let pageWidth := base.1
  let pageHeight := base.2
  match options.orientation with
  | .landscape =>
      if pageWidth < pageHeight then (pageHeight, pageWidth) else (pageWidth, pageHeight)
  | .portrait =>
      if pageWidth > pageHeight then (pageHeight, pageWidth) else (pageWidth, pageHeight)
  | .auto =>
      let imageIsLandscape := decide (imageWidth > imageHeight)
      let pageIsLandscape := decide (pageWidth > pageHeight)
      let isPresetNonFit : Bool :=
        match options.pageSize with
        | .preset t => decide (t ≠ .FIT)
        | .custom _ _ => false
      if imageIsLandscape ≠ pageIsLandscape && isPresetNonFit then
        (pageHeight, pageWidth)
      else (pageWidth, pageHeight)

/-- The placement rectangle `{x, y, width, height}` returned by
`calculateImagePlacement`. -/
structure Placement where
  x : ℚ
  y : ℚ
  width : ℚ
  height : ℚ
deriving DecidableEq, Repr

/-- `ImageToPDFProcessor.calculateImagePlacement`: available area is the page
minus the margin on each side; with scale-to-fit the image is scaled by
`min(scaleX, scaleY, 1)` (never upscaled); centering overrides the
margin-anchored position. -/
def calculateImagePlacement (imageWidth imageHeight pageWidth pageHeight : ℚ)
    (options : ImageToPDFOptions) : Placement :=
  let availableWidth := pageWidth - options.margin * 2
  let availableHeight := pageHeight - options.margin * 2
  let wh : ℚ × ℚ :=
    if options.scaleToFit then
      let scaleX := availableWidth / imageWidth
      let scaleY := availableHeight / imageHeight
      let scale := min (min scaleX scaleY) 1
      (imageWidth * scale, imageHeight * scale)
    else (imageWidth, imageHeight)
  let xy : ℚ × ℚ :=
    if options.centerImage then
      ((pageWidth - wh.1) / 2, (pageHeight - wh.2) / 2)
    else (options.margin, options.margin)
  { x := xy.1, y := xy.2, width := wh.1, height := wh.2 }

/-! ## Page Range Resolver (`SplitPDFProcessor` helpers) -/

/-- A 1-based inclusive page range (`PageRange` in `@/types/pdf`). -/
structure PageRange where
  start : Int
  «end» : Int
deriving DecidableEq, Repr

/-- Which bound a range violated, carrying the numbers the source message
interpolates. -/
inductive RangeViolation where
  | startTooSmall (startv : Int)
  | endBeforeStart (endv startv : Int)
  | endExceedsTotal (endv total : Int)
  | startExceedsTotal (startv total : Int)
deriving DecidableEq, Repr

/-- The loop of `validatePageRanges`, carrying the 0-based index `i`; the
four checks are applied to each range in the order given, and the first
violation is returned with its 1-based position `i + 1`. -/
def validateLoop (total : Int) : Nat → List PageRange → Option (Nat × RangeViolation)
  | _, [] => none
  | i, r :: rest =>
    if r.start < 1 then some (i + 1, .startTooSmall r.start)
    else if r.«end» < r.start then some (i + 1, .endBeforeStart r.«end» r.start)
    else if r.«end» > total then some (i + 1, .endExceedsTotal r.«end» total)
    else if r.start > total then some (i + 1, .startExceedsTotal r.start total)
    else validateLoop total (i + 1) rest

/-- `validatePageRanges(ranges, totalPages)`: `none` when every range is
valid, otherwise the 1-based position of the first offending range and the
bound it violated. -/
def validatePageRanges (ranges : List PageRange) (totalPages : Int) :
    Option (Nat × RangeViolation) :=
  validateLoop totalPages 0 ranges

/-- The error message string `validatePageRanges` builds for a violation at
1-based position `pos` (the source returns this string directly). -/
def renderRangeError (pos : Nat) : RangeViolation → String
  | .startTooSmall _ =>
      "Range " ++ toString pos ++ ": Start page must be at least 1."
  | .endBeforeStart e s =>
      "Range " ++ toString pos ++ ": End page (" ++ toString e ++
        ") cannot be less than start page (" ++ toString s ++ ")."
  | .endExceedsTotal e t =>
      "Range " ++ toString pos ++ ": End page (" ++ toString e ++
        ") exceeds total pages (" ++ toString t ++ ")."
  | .startExceedsTotal s t =>
      "Range " ++ toString pos ++ ": Start page (" ++ toString s ++
        ") exceeds total pages (" ++ toString t ++ ")."

/-- A range is valid against a page count: `start ≥ 1`, `end ≥ start`,
`end ≤ totalPages`. -/
def RangeOk (r : PageRange) (total : Int) : Prop :=
  1 ≤ r.start ∧ r.start ≤ r.«end» ∧ r.«end» ≤ total

instance (r : PageRange) (total : Int) : Decidable (RangeOk r total) := by
  unfold RangeOk; infer_instance

/-- The spec's per-range check, in the spec's words: a range violates
`start ≥ 1`, `end ≥ start`, or `end ≤ totalPages`, reported as the first of
these bounds it breaks (the spec names no fourth check). -/
def specRangeCheck (r : PageRange) (total : Int) : Option RangeViolation :=
  if r.start < 1 then some (.startTooSmall r.start)
  else if r.«end» < r.start then some (.endBeforeStart r.«end» r.start)
  else if r.«end» > total then some (.endExceedsTotal r.«end» total)
  else none

/-- The spec's resolver behaviour: examine the ranges in the order given and
abort at the first violating range, reporting its 1-based position and the
bound violated. -/
def specFirstViolation (total : Int) : Nat → List PageRange → Option (Nat × RangeViolation)
  | _, [] => none
  | i, r :: rest =>
    match specRangeCheck r total with
    | some v => some (i + 1, v)
    | none => specFirstViolation total (i + 1) rest

/-! ## Page range parsing (`parsePageRanges`) -/

/-- `String.prototype.split(sep)` on a character list: the (never empty) list
of separator-delimited chunks. -/
def splitOnChar (sep : Char) : List Char → List (List Char)
  | [] => [[]]
  | c :: rest =>
    let r := splitOnChar sep rest
    if c = sep then [] :: r
    else (c :: r.headD []) :: r.tail

/-- `String.prototype.trim()`: strip leading and trailing whitespace. -/
def trimChars (cs : List Char) : List Char :=
  ((cs.dropWhile Char.isWhitespace).reverse.dropWhile Char.isWhitespace).reverse

/-- The value of a maximal leading digit run, or `none` when the text does not
begin with a digit (the `NaN` case of `parseInt`). -/
def digitsVal (cs : List Char) : Option Nat :=
  match cs.takeWhile Char.isDigit with
  | [] => none
  | ds => some (ds.foldl (fun n c => n * 10 + (c.toNat - '0'.toNat)) 0)

/-- `parseInt(s, 10)`: skip leading whitespace, read an optional sign and then
a maximal digit run, ignoring any trailing text; `none` models `NaN`. -/
def parseIntJS (cs : List Char) : Option Int :=
  match cs.dropWhile Char.isWhitespace with
  | '+' :: rest => (digitsVal rest).map Int.ofNat
  | '-' :: rest => (digitsVal rest).map (fun n => -(n : Int))
  | other => (digitsVal other).map Int.ofNat

/-- The body of the `parsePageRanges` loop for one comma-separated token:
a token containing `-` is split at `-` and its first two trimmed pieces parsed
as start and end (skipped unless both parse); any other token is parsed as a
single page number `n` giving `{start: n, end: n}` (skipped when it does not
parse). -/
def parseToken (part : List Char) : Option PageRange :=
  if part.contains '-' then
    let pieces := (splitOnChar '-' part).map trimChars
    match parseIntJS (pieces.headD []), parseIntJS (pieces.tail.headD []) with
    | some s, some e => some ⟨s, e⟩
    | _, _ => none
  else
    (parseIntJS part).map fun n => ⟨n, n⟩

/-- The `for (const part of parts)` loop of `parsePageRanges`, pushing one
range per token that parses and skipping the rest. -/
def parseLoop : List (List Char) → List PageRange
  | [] => []
  | part :: rest =>
    match parseToken part with
    | some r => r :: parseLoop rest
    | none => parseLoop rest

/-- The comma-separated tokens of the input: split on `','`, trim each piece,
drop empties (`.split(',').map(s => s.trim()).filter(s => s.length > 0)`). -/
def rangeTokens (s : String) : List (List Char) :=
  ((splitOnChar ',' s.data).map trimChars).filter fun cs => cs.length > 0

/-- `parsePageRanges(rangeString, totalPages)` — the `totalPages` parameter is
unused by the source as well. -/
def parsePageRanges (rangeString : String) (_totalPages : Int) : List PageRange :=
  parseLoop (rangeTokens rangeString)

/-! ## Progress & Cancellation Coordinator

`BasePDFProcessor` is not among the provided sources; its interface is
modelled from the spec. Modelled from the spec: `updateProgress(p, msg)`
forwards the percentage to the run's progress callback (we record the emitted
sequence), and `checkCancelled()` reads the externally set cancellation flag
at the call sites — we model the flag's reads as a function of the poll
count. -/

/-- The observable per-run state of a processor: the percentages emitted so
far, and how many times the cancellation flag has been polled. -/
structure RunState where
  progress : List ℚ
  cancelCalls : Nat
deriving DecidableEq, Repr

/-- `this.updateProgress(p, message)`: emit `p` to the progress callback. -/
def RunState.emit (s : RunState) (p : ℚ) : RunState :=
  { s with progress := s.progress ++ [p] }

/-- `this.checkCancelled()`: read the cancellation flag (the environment
decides each poll's answer) and count the poll. -/
def RunState.pollCancel (s : RunState) (cancelled : Nat → Bool) : Bool × RunState :=
  (cancelled s.cancelCalls, { s with cancelCalls := s.cancelCalls + 1 })

/-- An emitted-progress sequence that is monotonically non-decreasing with
every value at most `b`. -/
def BoundedProgress (l : List ℚ) (b : ℚ) : Prop :=
  l.Chain' (· ≤ ·) ∧ ∀ x ∈ l, x ≤ b

/-- The spec's progress invariant for one run: the emitted sequence is
monotonically non-decreasing and never exceeds 100. -/
def ProgressOk (l : List ℚ) : Prop :=
  BoundedProgress l 100

/-! ## Split process (`SplitPDFProcessor.process`)

External collaborators (pdf-lib load/copy/save) are abstracted as environment
flags saying whether each awaited call throws; the control flow, progress
emissions and error outcomes are the source's. -/

/-- Environment of one split run: the inputs and the behaviour of every
external call and cancellation poll. -/
structure SplitEnv where
  fileCount : Nat
  ranges : List PageRange
  numPages : Nat
  libFails : Bool
  encrypted : Bool
  loadFails : Bool
  cancelled : Nat → Bool
  copyFails : Nat → Bool

/-- The 0-based page indices `pageIndices` built for one range
(`for (let pageNum = range.start; pageNum <= range.end; pageNum++)`). -/
def rangePageIndices (r : PageRange) : List Int :=
  (List.range (r.«end» + 1 - r.start).toNat).map fun k => r.start + k - 1

/-- The per-range loop of the split process: poll cancellation, emit
`15 + i * (75 / ranges.length)`, copy and save the range's pages (which may
throw), and accumulate the output. Returns an early-exit outcome or the
accumulated outputs. -/
def splitLoop (env : SplitEnv) (ppr : ℚ) :
    List PageRange → Nat → List (List Int) → RunState →
    Option (Outcome (List (List Int))) × List (List Int) × RunState
  | [], _, acc, s => (none, acc, s)
  | r :: rest, i, acc, s =>
    let cs := s.pollCancel env.cancelled
    if cs.1 then
      (some (.error .PROCESSING_CANCELLED "Processing was cancelled."), acc, cs.2)
    else
      let s := cs.2.emit (15 + i * ppr)
      if env.copyFails i then
        (some (.error .PROCESSING_FAILED "Failed to split PDF file."), acc, s)
      else
        splitLoop env ppr rest (i + 1) (acc ++ [rangePageIndices r]) s

/-- The tail of the split process after the per-range loop: an early exit is
returned as-is; a completed loop emits 95 then 100 and succeeds with the
outputs. -/
def splitFinish (r : Option (Outcome (List (List Int))) × List (List Int) × RunState) :
    Outcome (List (List Int)) × RunState :=
  match r with
  | (some out, _, s) => (out, s)
  | (none, acc, s) =>
    let s := s.emit 95
    let s := s.emit 100
    (.success acc, s)

/-- `SplitPDFProcessor.process`: option validation, library and document
loading, range validation, the per-range loop, and output assembly, in the
source's order, with the source's progress emissions. -/
def splitProcess (env : SplitEnv) : Outcome (List (List Int)) × RunState :=
  let s : RunState := ⟨[], 0⟩
  if env.fileCount ≠ 1 then
    (.error .INVALID_OPTIONS "Exactly 1 PDF file is required for splitting.", s)
  else if env.ranges.length = 0 then
    (.error .INVALID_OPTIONS "At least one page range is required for splitting.", s)
  else
    let s := s.emit 5
    if env.libFails then (.error .PROCESSING_FAILED "Failed to split PDF file.", s)
    else
      let cs := s.pollCancel env.cancelled
      if cs.1 then (.error .PROCESSING_CANCELLED "Processing was cancelled.", cs.2)
      else
        let s := cs.2.emit 10
        if env.encrypted then (.error .PDF_ENCRYPTED "The PDF file is encrypted.", s)
        else if env.loadFails then
          (.error .PROCESSING_FAILED "Failed to split PDF file.", s)
        else
          let s := s.emit 15
          match validatePageRanges env.ranges (env.numPages : Int) with
          | some (pos, v) => (.error .INVALID_PAGE_RANGE (renderRangeError pos v), s)
          | none =>
            let cs := s.pollCancel env.cancelled
            if cs.1 then (.error .PROCESSING_CANCELLED "Processing was cancelled.", cs.2)
            else
              let ppr : ℚ := 75 / (env.ranges.length : ℚ)
              splitFinish (splitLoop env ppr env.ranges 0 [] cs.2)

/-! ## OCR process (`OCRProcessor.process`)

The Tesseract session is the resource under scrutiny: the state records
whether a worker was ever created, whether the reference is currently
non-null, and how many times `terminate()` has been called on it. -/

/-- Environment of one OCR run. `pageOCR i` is the behaviour of
`this.ocrPage` at loop index `i` (recognized text, or a thrown error). -/
structure OCREnv where
  fileCount : Nat
  fileTypeOk : Bool
  pages : List Int
  numPages : Nat
  libFails : Bool
  initFails : Bool
  loadFails : Bool
  cancelled : Nat → Bool
  pageOCR : Nat → Except String String
  outputFails : Bool

/-- Per-run OCR state: emitted progress, cancellation polls, and the
Tesseract worker lifecycle (`this.tesseractWorker`). -/
structure OCRState where
  progress : List ℚ
  cancelCalls : Nat
  workerCreated : Bool
  workerAlive : Bool
  terminations : Nat
deriving DecidableEq, Repr

/-- `this.updateProgress(p, message)` in the OCR processor. -/
def OCRState.emit (s : OCRState) (p : ℚ) : OCRState :=
  { s with progress := s.progress ++ [p] }

/-- `this.checkCancelled()` in the OCR processor. -/
def OCRState.pollCancel (s : OCRState) (cancelled : Nat → Bool) : Bool × OCRState :=
  (cancelled s.cancelCalls, { s with cancelCalls := s.cancelCalls + 1 })

/-- `OCRProcessor.terminateTesseract`: when the worker reference is non-null,
call `terminate()` on it and null the reference; otherwise do nothing. -/
def terminateTesseract (s : OCRState) : OCRState :=
  if s.workerAlive then
    { s with workerAlive := false, terminations := s.terminations + 1 }
  else s

/-- One entry of `textResults`: either a page's recognized text
(`--- Page n ---` followed by the text) or the caught per-page failure's
inline marker (`--- Page n ---` followed by `[OCR Error: message]`). -/
inductive PageResult where
  | text (pageNum : Int) (content : String)
  | errorMarker (pageNum : Int) (message : String)
deriving DecidableEq, Repr

/-- `pagesToOCR`: an explicit non-empty page list is filtered to the numbers
in `[1, totalPages]`; an empty list means all pages `1..totalPages`. -/
def pagesToOCR (pages : List Int) (totalPages : Nat) : List Int :=
  if pages.length > 0 then
    pages.filter fun p => decide (1 ≤ p) && decide (p ≤ (totalPages : Int))
  else
    (List.range totalPages).map fun i => (i : Int) + 1

/-- The per-page OCR loop: poll cancellation (terminating the session on a
positive answer), emit `25 + i * (70 / pagesToOCR.length)`, then recognize
the page, catching a per-page failure as that page's inline marker. -/
def ocrLoop (env : OCREnv) (ppp : ℚ) :
    List Int → Nat → List PageResult → OCRState →
    Option (Outcome (List PageResult × Nat)) × List PageResult × OCRState
  | [], _, acc, s => (none, acc, s)
  | p :: rest, i, acc, s =>
    let cs := s.pollCancel env.cancelled
    if cs.1 then
      (some (.error .PROCESSING_CANCELLED "Processing was cancelled."),
        acc, terminateTesseract cs.2)
    else
      let s := cs.2.emit (25 + i * ppp)
      match env.pageOCR i with
      | .ok t => ocrLoop env ppp rest (i + 1) (acc ++ [.text p t]) s
      | .error m => ocrLoop env ppp rest (i + 1) (acc ++ [.errorMarker p m]) s

/-- The tail of the OCR process after the page loop: an early loop exit is
returned as-is; a completed loop tears the session down, emits 95, assembles
the output (whose failure is caught by the handler, which terminates again —
a no-op on the already-null worker), emits 100 and succeeds with the
`textResults` and the reported `pageCount`. -/
def ocrFinish (env : OCREnv) (selLen : Nat)
    (r : Option (Outcome (List PageResult × Nat)) × List PageResult × OCRState) :
    Outcome (List PageResult × Nat) × OCRState :=
  match r with
  | (some out, _, s) => (out, s)
  | (none, results, s) =>
    let s := terminateTesseract s
    let s := s.emit 95
    if env.outputFails then
      (.error .PROCESSING_FAILED "Failed to perform OCR on PDF.", terminateTesseract s)
    else
      let s := s.emit 100
      (.success (results, selLen), s)

/-- `OCRProcessor.process`: validation, library load, Tesseract session
creation, document load, page selection, the per-page loop, session teardown
and output assembly, in the source's order; every `catch` path runs
`terminateTesseract` as the source's handler does. The success payload is
the `textResults` list and the reported `pageCount`. -/
def ocrProcess (env : OCREnv) : Outcome (List PageResult × Nat) × OCRState :=
  let s : OCRState := ⟨[], 0, false, false, 0⟩
  if env.fileCount ≠ 1 then
    (.error .INVALID_OPTIONS "Please provide exactly one PDF file.", s)
  else if !env.fileTypeOk then
    (.error .FILE_TYPE_INVALID "Invalid file type. Please upload a PDF file.", s)
  else
    let s := s.emit 5
    if env.libFails then
      (.error .PROCESSING_FAILED "Failed to perform OCR on PDF.", terminateTesseract s)
    else
      let cs := s.pollCancel env.cancelled
      if cs.1 then (.error .PROCESSING_CANCELLED "Processing was cancelled.", cs.2)
      else
        let s := cs.2.emit 10
        if env.initFails then
          (.error .PROCESSING_FAILED "Failed to perform OCR on PDF.", terminateTesseract s)
        else
          let s := { s with workerCreated := true, workerAlive := true }
          let s := s.emit 20
          if env.loadFails then
            (.error .PROCESSING_FAILED "Failed to perform OCR on PDF.", terminateTesseract s)
          else
            let sel := pagesToOCR env.pages env.numPages
            if sel.length = 0 then
              (.error .INVALID_PAGE_RANGE "No valid pages to OCR.", terminateTesseract s)
            else
              let s := s.emit 25
              let ppp : ℚ := 70 / (sel.length : ℚ)
              ocrFinish env sel.length (ocrLoop env ppp sel 0 [] s)

/-- The `textResults` list a completed OCR loop starting at index `i`
produces over the selected pages: recognized text, or the inline error marker
when that page's recognition threw. -/
def ocrExpectedResults (env : OCREnv) : Nat → List Int → List PageResult
  | _, [] => []
  | i, p :: rest =>
    (match env.pageOCR i with
      | .ok t => PageResult.text p t
      | .error m => PageResult.errorMarker p m) :: ocrExpectedResults env (i + 1) rest

/-! ## Text color process (`TextColorProcessor.process`), page level

The per-pixel work is `recolorData` above; here we model which pages the run
touches and what the output document contains. Each output page is tagged
with the source page number it was rendered from. -/

/-- Environment of one text-color run. `pages = none` models `'all'`. -/
structure TCEnv where
  fileCount : Nat
  numPages : Nat
  pages : Option (List Int)
  libFails : Bool
  loadFails : Bool
  cancelled : Nat → Bool
  renderFails : Nat → Bool
  saveFails : Bool

/-- One page of the output document, tagged with the 1-based source page
number it was rendered from. -/
structure OutputPage where
  sourcePage : Int
deriving DecidableEq, Repr

/-- `pagesToProcess` of the text-color processor: `'all'` expands to
`1..totalPages`; an explicit list is taken as given, unfiltered. -/
def tcPagesToProcess (pages : Option (List Int)) (totalPages : Nat) : List Int :=
  match pages with
  | none => (List.range totalPages).map fun i => (i : Int) + 1
  | some ps => ps

/-- Whether `pdfjsDoc.getPage(pageNum)` succeeds: pdf.js rejects any page
number outside `[1, numPages]`. -/
def getPageOk (numPages : Nat) (p : Int) : Bool :=
  decide (1 ≤ p) && decide (p ≤ (numPages : Int))

/-- The per-page loop of the text-color process: poll cancellation, emit
`15 + 75 * (i / pagesToProcess.length)`, fetch the page (throwing on an
out-of-range number), render and recolor it (which may throw), and append the
new output page. -/
def tcLoop (env : TCEnv) (len : Nat) :
    List Int → Nat → List OutputPage → RunState →
    Option (Outcome (List OutputPage × Nat)) × List OutputPage × RunState
  | [], _, acc, s => (none, acc, s)
  | p :: rest, i, acc, s =>
    let cs := s.pollCancel env.cancelled
    if cs.1 then
      (some (.error .PROCESSING_CANCELLED "Processing was cancelled."), acc, cs.2)
    else
      let s := cs.2.emit (15 + 75 * ((i : ℚ) / (len : ℚ)))
      if !getPageOk env.numPages p then
        (some (.error .PROCESSING_FAILED "Failed to change text color."), acc, s)
      else if env.renderFails i then
        (some (.error .PROCESSING_FAILED "Failed to change text color."), acc, s)
      else
        tcLoop env len rest (i + 1) (acc ++ [⟨p⟩]) s

/-- `TextColorProcessor.process` at page granularity: validation, library and
document loading, the unfiltered page selection, the per-page loop, saving,
and the success payload (the output pages and the reported `pageCount`, which
is `pagesToProcess.length`). -/
def tcProcess (env : TCEnv) : Outcome (List OutputPage × Nat) × RunState :=
  let s : RunState := ⟨[], 0⟩
  if env.fileCount ≠ 1 then
    (.error .INVALID_OPTIONS "Exactly 1 PDF file is required.", s)
  else
    let s := s.emit 5
    if env.libFails then (.error .PROCESSING_FAILED "Failed to change text color.", s)
    else
      let s := s.emit 10
      if env.loadFails then (.error .PROCESSING_FAILED "Failed to change text color.", s)
      else
        let sel := tcPagesToProcess env.pages env.numPages
        let s := s.emit 15
        match tcLoop env sel.length sel 0 [] s with
        | (some out, _, s) => (out, s)
        | (none, acc, s) =>
          let s := s.emit 95
          if env.saveFails then
            (.error .PROCESSING_FAILED "Failed to change text color.", s)
          else
            let s := s.emit 100
            (.success (acc, sel.length), s)

/-! ## Background color page selection (`BackgroundColorProcessor.process`) -/

/-- `pagesToProcess` of the background processor: `'all'` expands to the
0-based indices `0..totalPages-1`; an explicit list is mapped `p ↦ p - 1`
without filtering. -/
def bgPagesToProcess (pages : Option (List Int)) (totalPages : Nat) : List Int :=
  match pages with
  | none => (List.range totalPages).map fun i => (i : Int)
  | some ps => ps.map fun p => p - 1

/-- The pages the background loop actually tints: the loop runs over every
source page `0..totalPages-1` and draws the background rectangle exactly on
those whose index `pagesToProcess.includes(i)`. -/
def bgTintedPages (pages : Option (List Int)) (totalPages : Nat) : List Nat :=
  (List.range totalPages).filter fun i =>
    (bgPagesToProcess pages totalPages).contains ((i : Int))

/-- The in-range filter on an explicit 1-based page list: keep the entries in
`[1, totalPages]`. -/
def inRangePages (ps : List Int) (totalPages : Nat) : List Int :=
  ps.filter fun p => decide (1 ≤ p) && decide (p ≤ (totalPages : Int))

/-! # Theorems -/

/-- Helper: the recoloring loop acts independently on each pixel of the
buffer. -/
theorem recolorData_eq_map (isDark : Bool) (t : ℚ) (c : RGBColor) (data : List Pixel) :
    recolorData isDark t c data = data.map (recolorPixel isDark t c) := by
  induction data with
  | nil => rfl
  | cons p rest ih => simp [recolorData, ih]

/-- C4: recoloring rewrites, pixel by pixel over the whole buffer, exactly the
pixels whose mean-of-RGB brightness is strictly below the threshold (dark
mode) respectively strictly above it (light mode) to the target color, leaves
every other pixel bitwise unchanged, and never modifies any pixel's alpha
byte. -/
theorem recolor_rewrites_exactly_predicate_pixels (t : ℚ) (c : RGBColor) :
    (∀ (isDark : Bool) (data : List Pixel),
        recolorData isDark t c data = data.map (recolorPixel isDark t c)) ∧
    (∀ (isDark : Bool) (p : Pixel), (recolorPixel isDark t c p).a = p.a) ∧
    (∀ p : Pixel, brightness p < t →
        recolorPixel true t c p = ⟨c.r * 255, c.g * 255, c.b * 255, p.a⟩) ∧
    (∀ p : Pixel, ¬ brightness p < t → recolorPixel true t c p = p) ∧
    (∀ p : Pixel, t < brightness p →
        recolorPixel false t c p = ⟨c.r * 255, c.g * 255, c.b * 255, p.a⟩) ∧
    (∀ p : Pixel, ¬ t < brightness p → recolorPixel false t c p = p) := by
  refine ⟨fun isDark data => recolorData_eq_map isDark t c data, ?_, ?_, ?_, ?_, ?_⟩
  · intro isDark p
    unfold recolorPixel
    split <;> rfl
  · intro p h
    simp [recolorPixel, shouldChange, h]
  · intro p h
    simp [recolorPixel, shouldChange, h]
  · intro p h
    simp [recolorPixel, shouldChange, gt_iff_lt, h]
  · intro p h
    simp [recolorPixel, shouldChange, gt_iff_lt, h]

/-- Witness for C4 at a concrete dark pixel and red target color. -/
theorem recolor_rewrites_exactly_predicate_pixels_witness :
    brightness ⟨10, 20, 30, 77⟩ < 128 ∧
    recolorPixel true 128 ⟨1, 0, 0⟩ ⟨10, 20, 30, 77⟩ = ⟨255, 0, 0, 77⟩ := by
  refine ⟨by norm_num [brightness], ?_⟩
  have h := (recolor_rewrites_exactly_predicate_pixels 128 ⟨1, 0, 0⟩).2.2.1
    ⟨10, 20, 30, 77⟩ (by norm_num [brightness])
  simpa using h

/-- Helper: the placement size under scale-to-fit, in closed form. -/
theorem calculateImagePlacement_size (iw ih pw ph : ℚ) (options : ImageToPDFOptions)
    (hfit : options.scaleToFit = true) :
    (calculateImagePlacement iw ih pw ph options).width =
      iw * min (min ((pw - options.margin * 2) / iw) ((ph - options.margin * 2) / ih)) 1 ∧
    (calculateImagePlacement iw ih pw ph options).height =
      ih * min (min ((pw - options.margin * 2) / iw) ((ph - options.margin * 2) / ih)) 1 := by
  unfold calculateImagePlacement
  rw [hfit]
  constructor <;> (split <;> first | rfl | simp_all)

/-- C5: with scale-to-fit enabled, placement uses the scale factor
`min(availableWidth/imageWidth, availableHeight/imageHeight, 1)`, so the
placed width and height never exceed the image's own width and height. -/
theorem placement_never_upscales (iw ih pw ph : ℚ) (options : ImageToPDFOptions)
    (hfit : options.scaleToFit = true) (hw : 0 < iw) (hh : 0 < ih) :
    (calculateImagePlacement iw ih pw ph options).width =
      iw * min (min ((pw - options.margin * 2) / iw) ((ph - options.margin * 2) / ih)) 1 ∧
    (calculateImagePlacement iw ih pw ph options).height =
      ih * min (min ((pw - options.margin * 2) / iw) ((ph - options.margin * 2) / ih)) 1 ∧
    (calculateImagePlacement iw ih pw ph options).width ≤ iw ∧
    (calculateImagePlacement iw ih pw ph options).height ≤ ih := by
  obtain ⟨h1, h2⟩ := calculateImagePlacement_size iw ih pw ph options hfit
  refine ⟨h1, h2, ?_, ?_⟩
  · rw [h1]
    calc iw * min (min ((pw - options.margin * 2) / iw) ((ph - options.margin * 2) / ih)) 1
        ≤ iw * 1 := by
          exact mul_le_mul_of_nonneg_left (min_le_right _ _) hw.le
      _ = iw := mul_one iw
  · rw [h2]
    calc ih * min (min ((pw - options.margin * 2) / iw) ((ph - options.margin * 2) / ih)) 1
        ≤ ih * 1 := by
          exact mul_le_mul_of_nonneg_left (min_le_right _ _) hh.le
      _ = ih := mul_one ih

/-- Witness for C5: a 1000×500 image on an A4 page with the default margin is
not upscaled. -/
theorem placement_never_upscales_witness :
    (calculateImagePlacement 1000 500 (59528/100) (84189/100)
        ⟨.preset .A4, .auto, 36, true, true⟩).width ≤ 1000 ∧
    (calculateImagePlacement 1000 500 (59528/100) (84189/100)
        ⟨.preset .A4, .auto, 36, true, true⟩).height ≤ 500 := by
  have h := placement_never_upscales 1000 500 (59528/100) (84189/100)
    ⟨.preset .A4, .auto, 36, true, true⟩ rfl (by norm_num) (by norm_num)
  exact ⟨h.2.2.1, h.2.2.2⟩

/-- Counterexample to C2: a FIT page for a 200×100 image with margin 0 under
explicit portrait orientation is swapped to 100×200 by the orientation step,
so its size is not content size plus margin per axis. -/
theorem fit_portrait_counterexample :
    calculatePageDimensions 200 100
      ⟨.preset .FIT, .portrait, 0, true, true⟩ = (100, 200) ∧
    calculatePageDimensions 200 100
      ⟨.preset .FIT, .portrait, 0, true, true⟩ ≠ (200 + 0 * 2, 100 + 0 * 2) := by
  constructor <;> norm_num [calculatePageDimensions]

/-- C2 (amended): under `auto` orientation, a FIT page's size is exactly the
content size plus the margin on all sides — the `auto` orientation step never
swaps a FIT page — while explicit portrait/landscape orientation may swap
those dimensions. -/
theorem fit_auto_page_size (w h m : ℚ) (ci sf : Bool) :
    calculatePageDimensions w h ⟨.preset .FIT, .auto, m, ci, sf⟩ =
      (w + m * 2, h + m * 2) := by
  simp [calculatePageDimensions]

/-- Helper: the source's validation loop equals the spec's three-bound
first-violation scan — the source's fourth check (`start > totalPages`) can
never fire, because reaching it means `start ≤ end ≤ totalPages`. -/
theorem validateLoop_eq_spec (total : Int) :
    ∀ (ranges : List PageRange) (i : Nat),
      validateLoop total i ranges = specFirstViolation total i ranges := by
  intro ranges
  induction ranges with
  | nil => intro i; rfl
  | cons r rest ih =>
    intro i
    by_cases h1 : r.start < 1
    · simp [validateLoop, specFirstViolation, specRangeCheck, h1]
    by_cases h2 : r.«end» < r.start
    · simp [validateLoop, specFirstViolation, specRangeCheck, h1, h2]
    by_cases h3 : r.«end» > total
    · simp [validateLoop, specFirstViolation, specRangeCheck, h1, h2, h3]
    have h4 : ¬ r.start > total := by omega
    simp [validateLoop, specFirstViolation, specRangeCheck, h1, h2, h3, h4, ih]

/-- Helper: the validation loop accepts exactly the lists all of whose ranges
satisfy `start ≥ 1`, `end ≥ start`, `end ≤ totalPages`. -/
theorem validateLoop_none_iff (total : Int) :
    ∀ (ranges : List PageRange) (i : Nat),
      (validateLoop total i ranges = none ↔ ∀ r ∈ ranges, RangeOk r total) := by
  intro ranges
  induction ranges with
  | nil => intro i; simp [validateLoop]
  | cons r rest ih =>
    intro i
    by_cases h1 : r.start < 1
    · simp only [validateLoop, if_pos h1]
      constructor
      · intro h; cases h
      · intro h
        exact absurd (h r (List.mem_cons_self r rest)) (by unfold RangeOk; omega)
    by_cases h2 : r.«end» < r.start
    · simp only [validateLoop, if_neg h1, if_pos h2]
      constructor
      · intro h; cases h
      · intro h
        exact absurd (h r (List.mem_cons_self r rest)) (by unfold RangeOk; omega)
    by_cases h3 : r.«end» > total
    · simp only [validateLoop, if_neg h1, if_neg h2, if_pos h3]
      constructor
      · intro h; cases h
      · intro h
        exact absurd (h r (List.mem_cons_self r rest)) (by unfold RangeOk; omega)
    have h4 : ¬ r.start > total := by omega
    simp only [validateLoop, if_neg h1, if_neg h2, if_neg h3, if_neg h4]
    rw [ih (i + 1)]
    constructor
    · intro h r' hr'
      rcases List.mem_cons.mp hr' with rfl | hmem
      · unfold RangeOk; omega
      · exact h r' hmem
    · intro h r' hr'
      exact h r' (List.mem_cons_of_mem r hr')

/-- C3: split range validation scans the ranges in the order given and the
first range violating `start ≥ 1`, `end ≥ start` or `end ≤ totalPages` aborts
validation, reporting the 1-based position of that range and the bound
violated (the source's extra `start > totalPages` check is unreachable); a
list is accepted exactly when every range is in bounds, and in particular
`{start:13, end:14}` against a 12-page document is rejected as range 1's end
exceeding the 12 total pages, with the corresponding message. -/
theorem split_range_validation_first_violation :
    (∀ (ranges : List PageRange) (total : Int),
        validatePageRanges ranges total = specFirstViolation total 0 ranges) ∧
    (∀ (ranges : List PageRange) (total : Int),
        (validatePageRanges ranges total = none ↔ ∀ r ∈ ranges, RangeOk r total)) ∧
    validatePageRanges [⟨13, 14⟩] 12 = some (1, .endExceedsTotal 14 12) ∧
    renderRangeError 1 (.endExceedsTotal 14 12) =
      "Range 1: End page (14) exceeds total pages (12)." := by
  refine ⟨fun ranges total => validateLoop_eq_spec total ranges 0,
    fun ranges total => validateLoop_none_iff total ranges 0, by decide, rfl⟩

/-- Helper: the parser's accumulating loop is token-independent — it emits,
in input order, exactly the parses of the tokens that parse, skipping the
rest. -/
theorem parseLoop_eq_filterMap :
    ∀ parts : List (List Char), parseLoop parts = parts.filterMap parseToken := by
  intro parts
  induction parts with
  | nil => rfl
  | cons p rest ih =>
    simp only [parseLoop, List.filterMap_cons]
    cases h : parseToken p <;> simp [h, ih]

/-- C9: the page-range parser splits the input on commas and emits one range
per token that parses — `n` giving `{start:n, end:n}`, `a-b` giving
`{start:a, end:b}` — in input order, silently skipping tokens that do not
parse as integers without aborting the remaining tokens. -/
theorem parsePageRanges_tokenwise :
    (∀ (s : String) (total : Int),
        parsePageRanges s total = (rangeTokens s).filterMap parseToken) ∧
    parsePageRanges "1-3,5,x,7-10" 0 = [⟨1, 3⟩, ⟨5, 5⟩, ⟨7, 10⟩] ∧
    parseToken "12".data = some ⟨12, 12⟩ ∧
    parseToken "x".data = none := by
  exact ⟨fun s _ => parseLoop_eq_filterMap (rangeTokens s), by decide, by decide, by decide⟩

/-- Helper: with cancellation never signalled and rendering never failing,
the text-color page loop aborts with the processing error as soon as its
remaining pages contain an out-of-range page number. -/
theorem tcLoop_fails_of_out_of_range (env : TCEnv)
    (hc : ∀ n, env.cancelled n = false) (hr : ∀ i, env.renderFails i = false)
    (len : Nat) :
    ∀ (rest : List Int) (i : Nat) (acc : List OutputPage) (s : RunState),
      (∃ p ∈ rest, p < 1 ∨ (env.numPages : Int) < p) →
      (tcLoop env len rest i acc s).1 =
        some (.error .PROCESSING_FAILED "Failed to change text color.") := by
  intro rest
  induction rest with
  | nil => intro i acc s h; simp at h
  | cons p ps ih =>
    intro i acc s h
    by_cases hp : getPageOk env.numPages p = true
    · have hrest : ∃ q ∈ ps, q < 1 ∨ (env.numPages : Int) < q := by
        rcases h with ⟨q, hq, hbad⟩
        rcases List.mem_cons.mp hq with rfl | hmem
        · exfalso
          unfold getPageOk at hp
          simp at hp
          omega
        · exact ⟨q, hmem, hbad⟩
      simp only [tcLoop, RunState.pollCancel, hc, Bool.false_eq_true, if_false, hp,
        Bool.not_true, hr, RunState.emit]
      exact ih _ _ _ hrest
    · simp only [tcLoop, RunState.pollCancel, hc, Bool.false_eq_true, if_false,
        RunState.emit, Bool.not_eq_true' ]
      rw [Bool.not_eq_true] at hp
      simp [hp]

/-- C1 (amended): the OCR page selection filters out-of-range and
non-positive page numbers silently (the selection is the in-range sublist of
the explicit list, in order); the background-tint loop tints only existing
pages and tints exactly the same pages whether or not the explicit list is
pre-filtered to the in-range entries (out-of-range entries are silently
inert); but the text-recolor processor passes an explicit page list through
unfiltered, and an out-of-range or non-positive entry makes the whole job
fail with a processing error instead of being skipped. -/
theorem additive_page_filtering :
    (∀ (ps : List Int) (total : Nat), ps ≠ [] →
        List.Sublist (pagesToOCR ps total) ps ∧
        ∀ p : Int, p ∈ pagesToOCR ps total ↔ (p ∈ ps ∧ 1 ≤ p ∧ p ≤ (total : Int))) ∧
    (∀ (ps : List Int) (total : Nat),
        bgTintedPages (some ps) total = bgTintedPages (some (inRangePages ps total)) total ∧
        ∀ i ∈ bgTintedPages (some ps) total, i < total) ∧
    (∀ (env : TCEnv) (sel : List Int),
        env.fileCount = 1 → env.pages = some sel →
        env.libFails = false → env.loadFails = false →
        (∀ n, env.cancelled n = false) → (∀ i, env.renderFails i = false) →
        (∃ p ∈ sel, p < 1 ∨ (env.numPages : Int) < p) →
        (tcProcess env).1 =
          Outcome.error .PROCESSING_FAILED "Failed to change text color.") := by
  refine ⟨?_, ?_, ?_⟩
  · intro ps total hne
    have hlen : ps.length > 0 := List.length_pos.mpr hne
    constructor
    · unfold pagesToOCR
      rw [if_pos hlen]
      exact List.filter_sublist _
    · intro p
      unfold pagesToOCR
      rw [if_pos hlen]
      simp [List.mem_filter]
  · intro ps total
    constructor
    · unfold bgTintedPages bgPagesToProcess inRangePages
      apply List.filter_congr
      intro i hi
      have hi' : i < total := List.mem_range.mp hi
      rw [Bool.eq_iff_iff]
      simp only [List.contains, List.elem_eq_mem, decide_eq_true_eq, List.mem_map,
        List.mem_filter]
      constructor
      · rintro ⟨p, hp, hpi⟩
        refine ⟨p, ⟨hp, ?_⟩, hpi⟩
        simp only [Bool.and_eq_true, decide_eq_true_eq]
        omega
      · rintro ⟨p, ⟨hp, _⟩, hpi⟩
        exact ⟨p, hp, hpi⟩
    · intro i hi
      unfold bgTintedPages at hi
      exact List.mem_range.mp (List.mem_filter.mp hi).1
  · intro env sel hfc hpg hlib hload hc hr hbad
    have hl := tcLoop_fails_of_out_of_range env hc hr sel.length sel 0 []
      ⟨([] : List ℚ) ++ [5] ++ [10] ++ [15], 0⟩ hbad
    simp only [tcProcess, hfc, hpg, hlib, hload, tcPagesToProcess, RunState.emit,
      ne_eq, Bool.false_eq_true, if_false, not_true_eq_false]
    cases htl : tcLoop env sel.length sel 0 [] ⟨([] : List ℚ) ++ [5] ++ [10] ++ [15], 0⟩ with
    | mk o r2 =>
      cases r2 with
      | mk acc2 s2 =>
        rw [htl] at hl
        simp only at hl
        subst hl
        simp

/-- Counterexample to C1 as stated: on a 1-page document, recoloring with the
explicit page list `[1, 2]` fails wholesale with a processing error — the
out-of-range entry `2` is not filtered out — while the same run with the list
`[1]` succeeds; so not every additive per-page operation filters out-of-range
page numbers silently. -/
theorem text_recolor_no_silent_filtering :
    (tcProcess ⟨1, 1, some [1, 2], false, false,
        fun _ => false, fun _ => false, false⟩).1 =
      Outcome.error .PROCESSING_FAILED "Failed to change text color." ∧
    (tcProcess ⟨1, 1, some [1], false, false,
        fun _ => false, fun _ => false, false⟩).1 =
      Outcome.success ([⟨1⟩], 1) := by
  constructor <;> rfl

/-- Witness for C1 (amended): the OCR selection drops `0` and `3` against a
2-page document, and the text-recolor job fails outright for page list `[2]`
on a 1-page document. -/
theorem additive_page_filtering_witness :
    pagesToOCR [0, 1, 3] 2 = [1] ∧
    (tcProcess ⟨1, 1, some [2], false, false,
        fun _ => false, fun _ => false, false⟩).1 =
      Outcome.error .PROCESSING_FAILED "Failed to change text color." := by
  refine ⟨by decide, ?_⟩
  exact additive_page_filtering.2.2
    ⟨1, 1, some [2], false, false, fun _ => false, fun _ => false, false⟩
    [2] rfl rfl rfl rfl (fun _ => rfl) (fun _ => rfl) (by decide)

/-- Helper: when the text-color page loop runs to completion, it has appended
exactly one output page per remaining selected page, in order, each tagged
with its source page number. -/
theorem tcLoop_none_results (env : TCEnv) (len : Nat) :
    ∀ (rest : List Int) (i : Nat) (acc : List OutputPage) (s : RunState),
      (tcLoop env len rest i acc s).1 = none →
      (tcLoop env len rest i acc s).2.1 = acc ++ rest.map (fun p => ⟨p⟩) := by
  intro rest
  induction rest with
  | nil => intro i acc s _; simp [tcLoop]
  | cons p ps ih =>
    intro i acc s h
    by_cases hcan : env.cancelled s.cancelCalls = true
    · simp [tcLoop, RunState.pollCancel, hcan] at h
    · rw [Bool.not_eq_true] at hcan
      by_cases hp : getPageOk env.numPages p = true
      · by_cases hrf : env.renderFails i = true
        · simp [tcLoop, RunState.pollCancel, hcan, hp, hrf] at h
        · rw [Bool.not_eq_true] at hrf
          simp only [tcLoop, RunState.pollCancel, hcan, Bool.false_eq_true, if_false,
            hp, Bool.not_true, hrf, RunState.emit] at h ⊢
          rw [ih _ _ _ h]
          simp
      · rw [Bool.not_eq_true] at hp
        simp [tcLoop, RunState.pollCancel, hcan, hp] at h

/-- Helper: an early exit of the text-color page loop is always one of the
two error outcomes, never a success. -/
theorem tcLoop_some_error (env : TCEnv) (len : Nat) :
    ∀ (rest : List Int) (i : Nat) (acc : List OutputPage) (s : RunState) (o : _),
      (tcLoop env len rest i acc s).1 = some o →
      o = Outcome.error .PROCESSING_CANCELLED "Processing was cancelled." ∨
      o = Outcome.error .PROCESSING_FAILED "Failed to change text color." := by
  intro rest
  induction rest with
  | nil => intro i acc s o h; simp [tcLoop] at h
  | cons p ps ih =>
    intro i acc s o h
    by_cases hcan : env.cancelled s.cancelCalls = true
    · simp [tcLoop, RunState.pollCancel, hcan] at h
      exact Or.inl h.symm
    · rw [Bool.not_eq_true] at hcan
      by_cases hp : getPageOk env.numPages p = true
      · by_cases hrf : env.renderFails i = true
        · simp [tcLoop, RunState.pollCancel, hcan, hp, hrf] at h
          exact Or.inr h.symm
        · rw [Bool.not_eq_true] at hrf
          simp only [tcLoop, RunState.pollCancel, hcan, Bool.false_eq_true, if_false,
            hp, Bool.not_true, hrf, RunState.emit] at h
          exact ih _ _ _ _ h
      · rw [Bool.not_eq_true] at hp
        simp [tcLoop, RunState.pollCancel, hcan, hp] at h
        exact Or.inr h.symm

/-- C10: when a text-color run over an explicit page list succeeds, the
output document contains exactly one page per entry of that list, in order
and tagged with that source page — pages not in the selection are absent —
and the reported page count is the selection's length, not the source page
count. -/
theorem textcolor_output_matches_selection (env : TCEnv) (sel : List Int)
    (hpg : env.pages = some sel) (out : List OutputPage) (n : Nat)
    (hsucc : (tcProcess env).1 = Outcome.success (out, n)) :
    out.map OutputPage.sourcePage = sel ∧ n = sel.length := by
  unfold tcProcess at hsucc
  rw [hpg] at hsucc
  simp only [tcPagesToProcess] at hsucc
  split at hsucc
  · simp at hsucc
  · split at hsucc
    · simp at hsucc
    · split at hsucc
      · simp at hsucc
      · split at hsucc
        next o acc2 s2 heq =>
          rcases tcLoop_some_error env sel.length sel 0 _ _ o (by rw [heq]) with h | h <;>
            simp [h] at hsucc
        next acc2 s2 heq =>
          split at hsucc
          · simp at hsucc
          · simp only [Outcome.success.injEq, Prod.mk.injEq] at hsucc
            obtain ⟨ho, hn⟩ := hsucc
            have hres := tcLoop_none_results env sel.length sel 0 [] _ (by rw [heq])
            rw [heq] at hres
            simp only at hres
            subst ho hn
            rw [hres]
            simp only [List.nil_append, List.map_map, and_true, eq_self_iff_true]
            exact List.map_id sel

/-- Witness for C10: a successful run over the explicit list `[2, 1]` on a
3-page document yields output pages sourced from pages 2 and 1, in that
order, and reports page count 2. -/
theorem textcolor_output_matches_selection_witness :
    ([⟨2⟩, ⟨1⟩] : List OutputPage).map OutputPage.sourcePage = [2, 1] ∧
    2 = [2, 1].length :=
  textcolor_output_matches_selection
    ⟨1, 3, some [2, 1], false, false, fun _ => false, fun _ => false, false⟩
    [2, 1] rfl [⟨2⟩, ⟨1⟩] 2 rfl

/-- Helper: starting from a live, never-terminated session, the OCR page loop
either completes with the session still live and untouched, or exits early
having terminated the session exactly once; the created flag is preserved
either way. -/
theorem ocrLoop_worker (env : OCREnv) (ppp : ℚ) :
    ∀ (rest : List Int) (i : Nat) (acc : List PageResult) (s : OCRState),
      s.workerAlive = true → s.terminations = 0 → s.workerCreated = true →
      (((ocrLoop env ppp rest i acc s).1 = none ∧
          (ocrLoop env ppp rest i acc s).2.2.workerAlive = true ∧
          (ocrLoop env ppp rest i acc s).2.2.terminations = 0 ∧
          (ocrLoop env ppp rest i acc s).2.2.workerCreated = true) ∨
        ((ocrLoop env ppp rest i acc s).1 ≠ none ∧
          (ocrLoop env ppp rest i acc s).2.2.workerAlive = false ∧
          (ocrLoop env ppp rest i acc s).2.2.terminations = 1 ∧
          (ocrLoop env ppp rest i acc s).2.2.workerCreated = true)) := by
  intro rest
  induction rest with
  | nil =>
    intro i acc s h1 h2 h3
    left
    simp [ocrLoop, h1, h2, h3]
  | cons p ps ih =>
    intro i acc s h1 h2 h3
    by_cases hcan : env.cancelled s.cancelCalls = true
    · right
      simp [ocrLoop, OCRState.pollCancel, hcan, terminateTesseract, h1, h2, h3]
    · rw [Bool.not_eq_true] at hcan
      cases hres : env.pageOCR i with
      | ok t =>
        simp only [ocrLoop, OCRState.pollCancel, hcan, Bool.false_eq_true, if_false,
          OCRState.emit, hres]
        exact ih _ _ _ h1 h2 h3
      | error m =>
        simp only [ocrLoop, OCRState.pollCancel, hcan, Bool.false_eq_true, if_false,
          OCRState.emit, hres]
        exact ih _ _ _ h1 h2 h3

/-- Helper: whatever the loop's exit, if it either completed with a live,
never-terminated session or exited early having terminated once, the OCR tail
leaves the session terminated exactly once and the reference null. -/
theorem ocrFinish_worker (env : OCREnv) (selLen : Nat)
    (r : Option (Outcome (List PageResult × Nat)) × List PageResult × OCRState)
    (hr : (r.1 = none ∧ r.2.2.workerAlive = true ∧ r.2.2.terminations = 0 ∧
            r.2.2.workerCreated = true) ∨
          (r.1 ≠ none ∧ r.2.2.workerAlive = false ∧ r.2.2.terminations = 1 ∧
            r.2.2.workerCreated = true)) :
    (ocrFinish env selLen r).2.terminations = 1 ∧
    (ocrFinish env selLen r).2.workerAlive = false := by
  obtain ⟨o, results, s⟩ := r
  rcases hr with ⟨ho, ha, ht, _⟩ | ⟨ho, ha, ht, _⟩
  · replace ho : o = none := ho
    replace ha : s.workerAlive = true := ha
    replace ht : s.terminations = 0 := ht
    subst ho
    by_cases hout : env.outputFails = true <;>
      simp [ocrFinish, hout, terminateTesseract, OCRState.emit, ha, ht]
  · replace ha : s.workerAlive = false := ha
    replace ht : s.terminations = 1 := ht
    cases o with
    | none => exact absurd rfl ho
    | some out => simp [ocrFinish, ha, ht]

/-- C6: whenever an OCR run gets as far as creating the Tesseract session, the
session's `terminate()` has been called exactly once by the time the job
function returns — on normal completion, on the empty-selection error, on
cancellation detected mid-loop, and on any caught unexpected error — and the
worker reference is null afterward. -/
theorem ocr_session_terminated_once (env : OCREnv)
    (h : (ocrProcess env).2.workerCreated = true) :
    (ocrProcess env).2.terminations = 1 ∧ (ocrProcess env).2.workerAlive = false := by
  by_cases hfc : env.fileCount = 1
  case neg => unfold ocrProcess at h; simp [hfc] at h
  by_cases hft : env.fileTypeOk = true
  case neg =>
    rw [Bool.not_eq_true] at hft
    unfold ocrProcess at h
    simp [hfc, hft] at h
  by_cases hlib : env.libFails = true
  · unfold ocrProcess at h
    simp [hfc, hft, hlib, terminateTesseract, OCRState.emit] at h
  rw [Bool.not_eq_true] at hlib
  by_cases hcan : env.cancelled 0 = true
  · unfold ocrProcess at h
    simp [hfc, hft, hlib, hcan, OCRState.pollCancel, OCRState.emit] at h
  rw [Bool.not_eq_true] at hcan
  by_cases hinit : env.initFails = true
  · unfold ocrProcess at h
    simp [hfc, hft, hlib, hcan, hinit, OCRState.pollCancel, OCRState.emit,
      terminateTesseract] at h
  rw [Bool.not_eq_true] at hinit
  by_cases hload : env.loadFails = true
  · unfold ocrProcess
    simp [hfc, hft, hlib, hcan, hinit, hload, OCRState.pollCancel, OCRState.emit,
      terminateTesseract]
  rw [Bool.not_eq_true] at hload
  by_cases hsel : (pagesToOCR env.pages env.numPages).length = 0
  · unfold ocrProcess
    simp [hfc, hft, hlib, hcan, hinit, hload, hsel, OCRState.pollCancel,
      OCRState.emit, terminateTesseract]
  have hEq : ocrProcess env =
      ocrFinish env (pagesToOCR env.pages env.numPages).length
        (ocrLoop env (70 / ((pagesToOCR env.pages env.numPages).length : ℚ))
          (pagesToOCR env.pages env.numPages) 0 []
          ⟨[5, 10, 20, 25], 1, true, true, 0⟩) := by
    unfold ocrProcess
    simp [hfc, hft, hlib, hcan, hinit, hload, hsel, OCRState.pollCancel, OCRState.emit]
  rw [hEq]
  exact ocrFinish_worker env _ _
    (ocrLoop_worker env (70 / ((pagesToOCR env.pages env.numPages).length : ℚ))
      (pagesToOCR env.pages env.numPages) 0 []
      ⟨[5, 10, 20, 25], 1, true, true, 0⟩ rfl rfl rfl)

/-- Helper: with cancellation never signalled, the OCR page loop completes,
leaving the session untouched, and appends exactly one `textResults` entry
per page — the recognized text, or the inline error marker when that page's
recognition threw. -/
theorem ocrLoop_no_cancel (env : OCREnv) (ppp : ℚ)
    (hc : ∀ n, env.cancelled n = false) :
    ∀ (rest : List Int) (i : Nat) (acc : List PageResult) (s : OCRState),
      (ocrLoop env ppp rest i acc s).1 = none ∧
      (ocrLoop env ppp rest i acc s).2.1 = acc ++ ocrExpectedResults env i rest := by
  intro rest
  induction rest with
  | nil => intro i acc s; simp [ocrLoop, ocrExpectedResults]
  | cons p ps ih =>
    intro i acc s
    cases hres : env.pageOCR i with
    | ok t =>
      simp only [ocrLoop, OCRState.pollCancel, hc, Bool.false_eq_true, if_false,
        OCRState.emit, hres, ocrExpectedResults]
      obtain ⟨h1, h2⟩ := ih (i + 1) (acc ++ [PageResult.text p t]) _
      exact ⟨h1, by rw [h2]; simp⟩
    | error m =>
      simp only [ocrLoop, OCRState.pollCancel, hc, Bool.false_eq_true, if_false,
        OCRState.emit, hres, ocrExpectedResults]
      obtain ⟨h1, h2⟩ := ih (i + 1) (acc ++ [PageResult.errorMarker p m]) _
      exact ⟨h1, by rw [h2]; simp⟩

/-- Helper: a completed loop with output assembly succeeding yields the
success outcome carrying the accumulated results and the selection length. -/
theorem ocrFinish_success (env : OCREnv) (selLen : Nat)
    (r : Option (Outcome (List PageResult × Nat)) × List PageResult × OCRState)
    (ho : r.1 = none) (hout : env.outputFails = false) :
    (ocrFinish env selLen r).1 = Outcome.success (r.2.1, selLen) := by
  obtain ⟨o, results, s⟩ := r
  simp only at ho
  subst ho
  simp [ocrFinish, hout]

/-- C7: when a page's recognition throws, the failure is recorded as that
page's `textResults` entry (the inline error marker), the remaining pages are
still processed, and the job returns a success outcome with the assembled
per-page results — a per-page recognition failure never aborts the job. -/
theorem ocr_per_page_failure_tolerated (env : OCREnv)
    (hfc : env.fileCount = 1) (hft : env.fileTypeOk = true)
    (hlib : env.libFails = false) (hinit : env.initFails = false)
    (hload : env.loadFails = false) (hout : env.outputFails = false)
    (hc : ∀ n, env.cancelled n = false)
    (hne : pagesToOCR env.pages env.numPages ≠ []) :
    (ocrProcess env).1 =
      Outcome.success (ocrExpectedResults env 0 (pagesToOCR env.pages env.numPages),
        (pagesToOCR env.pages env.numPages).length) := by
  have hsel : ¬ (pagesToOCR env.pages env.numPages).length = 0 := fun h0 =>
    hne (List.length_eq_zero.mp h0)
  have hcan := hc 0
  have hEq : ocrProcess env =
      ocrFinish env (pagesToOCR env.pages env.numPages).length
        (ocrLoop env (70 / ((pagesToOCR env.pages env.numPages).length : ℚ))
          (pagesToOCR env.pages env.numPages) 0 []
          ⟨[5, 10, 20, 25], 1, true, true, 0⟩) := by
    unfold ocrProcess
    simp [hfc, hft, hlib, hcan, hinit, hload, hsel, OCRState.pollCancel, OCRState.emit]
  obtain ⟨h1, h2⟩ := ocrLoop_no_cancel env
    (70 / ((pagesToOCR env.pages env.numPages).length : ℚ)) hc
    (pagesToOCR env.pages env.numPages) 0 [] ⟨[5, 10, 20, 25], 1, true, true, 0⟩
  rw [hEq, ocrFinish_success env _ _ h1 hout, h2]
  simp

/-- Witness for C6: a full 1-page run terminates the session exactly once and
nulls the worker. -/
theorem ocr_session_terminated_once_witness :
    (ocrProcess ⟨1, true, [], 1, false, false, false, fun _ => false,
        fun _ => Except.ok "t", false⟩).2.terminations = 1 ∧
    (ocrProcess ⟨1, true, [], 1, false, false, false, fun _ => false,
        fun _ => Except.ok "t", false⟩).2.workerAlive = false :=
  ocr_session_terminated_once
    ⟨1, true, [], 1, false, false, false, fun _ => false,
      fun _ => Except.ok "t", false⟩ rfl

/-- Witness for C7: page 1's recognition throws, page 2 is still processed,
and the job succeeds with the marker for page 1 and the text for page 2. -/
theorem ocr_per_page_failure_tolerated_witness :
    (ocrProcess ⟨1, true, [], 2, false, false, false, fun _ => false,
        fun i => if i = 0 then Except.error "boom" else Except.ok "hello",
        false⟩).1 =
      Outcome.success ([PageResult.errorMarker 1 "boom", PageResult.text 2 "hello"], 2) := by
  have h := ocr_per_page_failure_tolerated
    ⟨1, true, [], 2, false, false, false, fun _ => false,
      fun i => if i = 0 then Except.error "boom" else Except.ok "hello", false⟩
    rfl rfl rfl rfl rfl rfl (fun _ => rfl) (by decide)
  rw [h]
  rfl

/-- Helper: emitting a value at least the current bound keeps the emitted
sequence monotone, with the new value as the new bound. -/
theorem bp_emit {l : List ℚ} {b p : ℚ} (h : BoundedProgress l b) (hbp : b ≤ p) :
    BoundedProgress (l ++ [p]) p := by
  obtain ⟨hc, hb⟩ := h
  constructor
  · rw [List.chain'_append]
    refine ⟨hc, List.chain'_singleton p, ?_⟩
    intro x hx y hy
    simp only [List.head?_cons, Option.mem_def, Option.some.injEq] at hy
    subst hy
    obtain ⟨hne, hxl⟩ := List.mem_getLast?_eq_getLast hx
    exact le_trans (hb x (hxl ▸ List.getLast_mem hne)) hbp
  · intro x hx
    rcases List.mem_append.mp hx with h | h
    · exact le_trans (hb x h) hbp
    · simp only [List.mem_singleton] at h
      subst h
      exact le_refl _

/-- Helper: a progress bound can be weakened. -/
theorem bp_mono {l : List ℚ} {b c : ℚ} (h : BoundedProgress l b) (hbc : b ≤ c) :
    BoundedProgress l c :=
  ⟨h.1, fun x hx => le_trans (h.2 x hx) hbc⟩

/-- Helper: `i ≤ len` steps of size `c / len` add up to at most `c`. -/
theorem mul_div_le_of_le (i len : Nat) (c : ℚ) (hc : 0 ≤ c) (hlen : len ≠ 0)
    (hi : i ≤ len) : (i : ℚ) * (c / (len : ℚ)) ≤ c := by
  have hl : (0 : ℚ) < (len : ℚ) := by
    exact_mod_cast Nat.pos_of_ne_zero hlen
  calc (i : ℚ) * (c / (len : ℚ)) ≤ (len : ℚ) * (c / (len : ℚ)) := by
        apply mul_le_mul_of_nonneg_right _ (div_nonneg hc hl.le)
        exact_mod_cast hi
    _ = c := by field_simp

/-- Helper: `terminateTesseract` does not touch the emitted progress. -/
theorem terminateTesseract_progress (s : OCRState) :
    (terminateTesseract s).progress = s.progress := by
  unfold terminateTesseract
  split <;> rfl

/-- Helper: starting from a monotone emission history bounded by the next
emission `25 + i * (70/len)`, the OCR page loop keeps the history monotone
and bounded by 95. -/
theorem ocrLoop_progress (env : OCREnv) (len : Nat) (hlen : len ≠ 0) :
    ∀ (rest : List Int) (i : Nat) (acc : List PageResult) (s : OCRState),
      i + rest.length ≤ len →
      BoundedProgress s.progress (25 + (i : ℚ) * (70 / (len : ℚ))) →
      BoundedProgress
        ((ocrLoop env (70 / (len : ℚ)) rest i acc s).2.2.progress) 95 := by
  have hstep : (0 : ℚ) ≤ 70 / (len : ℚ) := by positivity
  intro rest
  induction rest with
  | nil =>
    intro i acc s hle hbp
    simp only [ocrLoop]
    refine bp_mono hbp ?_
    have := mul_div_le_of_le i len 70 (by norm_num) hlen (by omega)
    linarith
  | cons p ps ih =>
    intro i acc s hle hbp
    have hb95 : 25 + (i : ℚ) * (70 / (len : ℚ)) ≤ 95 := by
      have := mul_div_le_of_le i len 70 (by norm_num) hlen (by omega)
      linarith
    by_cases hcan : env.cancelled s.cancelCalls = true
    · simp only [ocrLoop, OCRState.pollCancel, hcan, if_true, terminateTesseract_progress]
      exact bp_mono hbp hb95
    · rw [Bool.not_eq_true] at hcan
      have hbp' : BoundedProgress (s.progress ++ [25 + (i : ℚ) * (70 / (len : ℚ))])
          (25 + ((i : Nat) + 1 : ℚ) * (70 / (len : ℚ))) := by
        refine bp_mono (bp_emit hbp (le_refl _)) ?_
        have : (i : ℚ) * (70 / (len : ℚ)) ≤ ((i : ℚ) + 1) * (70 / (len : ℚ)) := by
          nlinarith
        linarith
      cases hres : env.pageOCR i with
      | ok t =>
        simp only [ocrLoop, OCRState.pollCancel, hcan, Bool.false_eq_true, if_false,
          OCRState.emit, hres]
        refine ih (i + 1) _ _ (by simp only [List.length_cons] at hle; omega) ?_
        exact_mod_cast hbp'
      | error m =>
        simp only [ocrLoop, OCRState.pollCancel, hcan, Bool.false_eq_true, if_false,
          OCRState.emit, hres]
        refine ih (i + 1) _ _ (by simp only [List.length_cons] at hle; omega) ?_
        exact_mod_cast hbp'

/-- Helper: the OCR tail turns a loop history bounded by 95 into a full-run
history obeying the progress invariant. -/
theorem ocrFinish_progress (env : OCREnv) (selLen : Nat)
    (r : Option (Outcome (List PageResult × Nat)) × List PageResult × OCRState)
    (hr : BoundedProgress r.2.2.progress 95) :
    ProgressOk (ocrFinish env selLen r).2.progress := by
  obtain ⟨o, results, s⟩ := r
  replace hr : BoundedProgress s.progress 95 := hr
  cases o with
  | some out => exact bp_mono hr (by norm_num)
  | none =>
    unfold ocrFinish
    by_cases hout : env.outputFails = true
    · simp only [hout, if_true, OCRState.emit, terminateTesseract_progress]
      exact bp_mono (bp_emit hr (by norm_num)) (by norm_num)
    · rw [Bool.not_eq_true] at hout
      simp only [hout, Bool.false_eq_true, if_false, OCRState.emit,
        terminateTesseract_progress]
      exact bp_mono (bp_emit (bp_emit hr (by norm_num)) (by norm_num)) (le_refl _)

/-- Helper: every OCR run's emitted progress sequence is monotone and stays
within 100. -/
theorem ocrProcess_progress (env : OCREnv) :
    ProgressOk (ocrProcess env).2.progress := by
  have hnil : ProgressOk ([] : List ℚ) := ⟨List.chain'_nil, by simp⟩
  have h5 : ProgressOk ([5] : List ℚ) :=
    ⟨List.chain'_singleton 5, by intro x hx; fin_cases hx; norm_num⟩
  have h510 : ProgressOk ([5, 10] : List ℚ) :=
    ⟨by norm_num [List.chain'_cons, List.chain'_singleton],
      by intro x hx; fin_cases hx <;> norm_num⟩
  have h51020 : ProgressOk ([5, 10, 20] : List ℚ) :=
    ⟨by norm_num [List.chain'_cons, List.chain'_singleton],
      by intro x hx; fin_cases hx <;> norm_num⟩
  by_cases hfc : env.fileCount = 1
  case neg => unfold ocrProcess; simp [hfc]; exact hnil
  by_cases hft : env.fileTypeOk = true
  case neg =>
    rw [Bool.not_eq_true] at hft
    unfold ocrProcess
    simp [hfc, hft]
    exact hnil
  by_cases hlib : env.libFails = true
  · unfold ocrProcess
    simp [hfc, hft, hlib, OCRState.emit, terminateTesseract_progress]
    exact h5
  rw [Bool.not_eq_true] at hlib
  by_cases hcan : env.cancelled 0 = true
  · unfold ocrProcess
    simp [hfc, hft, hlib, hcan, OCRState.pollCancel, OCRState.emit]
    exact h5
  rw [Bool.not_eq_true] at hcan
  by_cases hinit : env.initFails = true
  · unfold ocrProcess
    simp [hfc, hft, hlib, hcan, hinit, OCRState.pollCancel, OCRState.emit,
      terminateTesseract_progress]
    exact h510
  rw [Bool.not_eq_true] at hinit
  by_cases hload : env.loadFails = true
  · unfold ocrProcess
    simp [hfc, hft, hlib, hcan, hinit, hload, OCRState.pollCancel, OCRState.emit,
      terminateTesseract_progress]
    exact h51020
  rw [Bool.not_eq_true] at hload
  by_cases hsel : (pagesToOCR env.pages env.numPages).length = 0
  · unfold ocrProcess
    simp [hfc, hft, hlib, hcan, hinit, hload, hsel, OCRState.pollCancel,
      OCRState.emit, terminateTesseract_progress]
    exact h51020
  have hEq : ocrProcess env =
      ocrFinish env (pagesToOCR env.pages env.numPages).length
        (ocrLoop env (70 / ((pagesToOCR env.pages env.numPages).length : ℚ))
          (pagesToOCR env.pages env.numPages) 0 []
          ⟨[5, 10, 20, 25], 1, true, true, 0⟩) := by
    unfold ocrProcess
    simp [hfc, hft, hlib, hcan, hinit, hload, hsel, OCRState.pollCancel, OCRState.emit]
  rw [hEq]
  refine ocrFinish_progress env _ _ ?_
  refine ocrLoop_progress env (pagesToOCR env.pages env.numPages).length hsel
    (pagesToOCR env.pages env.numPages) 0 [] ⟨[5, 10, 20, 25], 1, true, true, 0⟩
    (by omega) ?_
  refine bp_mono
    (⟨by norm_num [List.chain'_cons, List.chain'_singleton],
      by intro x hx; fin_cases hx <;> norm_num⟩ :
      BoundedProgress [5, 10, 20, 25] 25) ?_
  norm_num

/-- Helper: starting from a monotone emission history bounded by the next
emission `15 + i * (75/len)`, the split range loop keeps the history monotone
and bounded by 90. -/
theorem splitLoop_progress (env : SplitEnv) (len : Nat) (hlen : len ≠ 0) :
    ∀ (rest : List PageRange) (i : Nat) (acc : List (List Int)) (s : RunState),
      i + rest.length ≤ len →
      BoundedProgress s.progress (15 + (i : ℚ) * (75 / (len : ℚ))) →
      BoundedProgress
        ((splitLoop env (75 / (len : ℚ)) rest i acc s).2.2.progress) 90 := by
  intro rest
  induction rest with
  | nil =>
    intro i acc s hle hbp
    simp only [splitLoop]
    refine bp_mono hbp ?_
    have := mul_div_le_of_le i len 75 (by norm_num) hlen (by omega)
    linarith
  | cons r rs ih =>
    intro i acc s hle hbp
    have hb90 : 15 + (i : ℚ) * (75 / (len : ℚ)) ≤ 90 := by
      have := mul_div_le_of_le i len 75 (by norm_num) hlen (by omega)
      linarith
    by_cases hcan : env.cancelled s.cancelCalls = true
    · simp only [splitLoop, RunState.pollCancel, hcan, if_true]
      exact bp_mono hbp hb90
    · rw [Bool.not_eq_true] at hcan
      have hstep : (0 : ℚ) ≤ 75 / (len : ℚ) := by positivity
      have hup : 15 + (i : ℚ) * (75 / (len : ℚ)) ≤
          15 + ((i : ℚ) + 1) * (75 / (len : ℚ)) := by nlinarith
      have hbp' : BoundedProgress (s.progress ++ [15 + (i : ℚ) * (75 / (len : ℚ))])
          (15 + ((i : Nat) + 1 : ℚ) * (75 / (len : ℚ))) := by
        refine bp_mono (bp_emit hbp (le_refl _)) ?_
        linarith
      by_cases hcf : env.copyFails i = true
      · simp only [splitLoop, RunState.pollCancel, hcan, Bool.false_eq_true, if_false,
          RunState.emit, hcf, if_true]
        refine bp_mono hbp' ?_
        have := mul_div_le_of_le (i + 1) len 75 (by norm_num) hlen
          (by simp only [List.length_cons] at hle; omega)
        push_cast at this ⊢
        linarith
      · rw [Bool.not_eq_true] at hcf
        simp only [splitLoop, RunState.pollCancel, hcan, Bool.false_eq_true, if_false,
          RunState.emit, hcf]
        refine ih (i + 1) _ _ (by simp only [List.length_cons] at hle; omega) ?_
        exact_mod_cast hbp'

/-- Helper: the split tail turns a loop history bounded by 90 into a full-run
history obeying the progress invariant. -/
theorem splitFinish_progress
    (r : Option (Outcome (List (List Int))) × List (List Int) × RunState)
    (hr : BoundedProgress r.2.2.progress 90) :
    ProgressOk (splitFinish r).2.progress := by
  obtain ⟨o, acc, s⟩ := r
  replace hr : BoundedProgress s.progress 90 := hr
  cases o with
  | some out => exact bp_mono hr (by norm_num)
  | none =>
    unfold splitFinish
    simp only [RunState.emit]
    exact bp_mono (bp_emit (bp_emit hr (by norm_num)) (by norm_num)) (le_refl _)

/-- Helper: every split run's emitted progress sequence is monotone and stays
within 100. -/
theorem splitProcess_progress (env : SplitEnv) :
    ProgressOk (splitProcess env).2.progress := by
  have hnil : ProgressOk ([] : List ℚ) := ⟨List.chain'_nil, by simp⟩
  have h5 : ProgressOk ([5] : List ℚ) :=
    ⟨List.chain'_singleton 5, by intro x hx; fin_cases hx; norm_num⟩
  have h510 : ProgressOk ([5, 10] : List ℚ) :=
    ⟨by norm_num [List.chain'_cons, List.chain'_singleton],
      by intro x hx; fin_cases hx <;> norm_num⟩
  have h51015 : ProgressOk ([5, 10, 15] : List ℚ) :=
    ⟨by norm_num [List.chain'_cons, List.chain'_singleton],
      by intro x hx; fin_cases hx <;> norm_num⟩
  by_cases hfc : env.fileCount = 1
  case neg => unfold splitProcess; simp [hfc]; exact hnil
  by_cases hrl : env.ranges.length = 0
  · unfold splitProcess; simp [hfc, hrl]; exact hnil
  by_cases hlib : env.libFails = true
  · unfold splitProcess
    simp [hfc, hrl, hlib, RunState.emit]
    exact h5
  rw [Bool.not_eq_true] at hlib
  by_cases hcan : env.cancelled 0 = true
  · unfold splitProcess
    simp [hfc, hrl, hlib, hcan, RunState.pollCancel, RunState.emit]
    exact h5
  rw [Bool.not_eq_true] at hcan
  by_cases henc : env.encrypted = true
  · unfold splitProcess
    simp [hfc, hrl, hlib, hcan, henc, RunState.pollCancel, RunState.emit]
    exact h510
  rw [Bool.not_eq_true] at henc
  by_cases hload : env.loadFails = true
  · unfold splitProcess
    simp [hfc, hrl, hlib, hcan, henc, hload, RunState.pollCancel, RunState.emit]
    exact h510
  rw [Bool.not_eq_true] at hload
  cases hval : validatePageRanges env.ranges (env.numPages : Int) with
  | some pv =>
    unfold splitProcess
    simp [hfc, hrl, hlib, hcan, henc, hload, hval, RunState.pollCancel, RunState.emit]
    exact h51015
  | none =>
    by_cases hcan2 : env.cancelled 1 = true
    · unfold splitProcess
      simp [hfc, hrl, hlib, hcan, henc, hload, hval, hcan2, RunState.pollCancel,
        RunState.emit]
      exact h51015
    rw [Bool.not_eq_true] at hcan2
    have hEq : splitProcess env =
        splitFinish (splitLoop env (75 / (env.ranges.length : ℚ))
          env.ranges 0 [] ⟨[5, 10, 15], 2⟩) := by
      unfold splitProcess
      simp [hfc, hrl, hlib, hcan, henc, hload, hval, hcan2, RunState.pollCancel,
        RunState.emit]
    rw [hEq]
    refine splitFinish_progress _ ?_
    refine splitLoop_progress env env.ranges.length hrl env.ranges 0 []
      ⟨[5, 10, 15], 2⟩ (by omega) ?_
    refine bp_mono
      (⟨by norm_num [List.chain'_cons, List.chain'_singleton],
        by intro x hx; fin_cases hx <;> norm_num⟩ :
        BoundedProgress [5, 10, 15] 15) ?_
    norm_num

/-- C8: within one processing run — for every page count, page selection,
range list, cancellation pattern and collaborator behaviour — the sequence of
percentage values the split and OCR processors emit to the progress callback
is monotonically non-decreasing and never exceeds 100. -/
theorem progress_monotone_and_bounded :
    (∀ env : OCREnv, ProgressOk (ocrProcess env).2.progress) ∧
    (∀ env : SplitEnv, ProgressOk (splitProcess env).2.progress) :=
  ⟨ocrProcess_progress, splitProcess_progress⟩

end PDFCraft
